import Mathlib

/-!
Verification development for the Czech real-estate scraping pipeline
(actors for sreality.cz, bezrealitky.cz and the CUZK cadastral service,
plus their shared utility library).

The TypeScript sources are shallowly embedded: pure helper functions
become Lean functions over `String`/`List Char`/`Nat`/`Int`/`ℚ`; the
actors' page/entry loops become fuel-indexed state-passing recursions;
network calls and per-entry save outcomes are supplied by explicit
oracles.  JavaScript `number` ids and counters are modelled as `Nat`
(all values in play are non-negative integers), prices as `Int`,
decimal quantities as `ℚ`.  JavaScript `undefined` becomes `Option`.

Notes on the JS-to-Lean translation used throughout:
- `Char.toLower` models `String.prototype.toLowerCase` per character;
  they agree on ASCII letters, which is all the proofs below exercise
  (non-ASCII characters pass through unchanged in the model).
- JS truthiness tests on strings/numbers are translated explicitly
  (`s = ""`, `n = 0`).
-/

/-! ## Generic string helpers (JS primitive behaviours) -/

/-- JS whitespace class `\s`, restricted to the ASCII members
(space, tab, newline, carriage return, vertical tab, form feed). -/
def isJsSpace (c : Char) : Bool :=
  c = ' ' || c = '\t' || c = '\n' || c = '\r' || c = '\x0b' || c = '\x0c'

/-- Per-character model of JS `toLowerCase` (ASCII-accurate). -/
def jsLowerChar (c : Char) : Char := c.toLower

/-- Model of `s.toLowerCase()` (ASCII-accurate). -/
def jsLowerStr (s : String) : String := ⟨s.data.map jsLowerChar⟩

/-- Case-insensitive character comparison, as used by a `/…/i` regex. -/
def lowEqC (a b : Char) : Bool := jsLowerChar a = jsLowerChar b

/-- Does `hay` start with `needle` (exact characters)? -/
def listStarts : List Char → List Char → Bool
  | [], _ => true
  | _ :: _, [] => false
  | a :: as, b :: bs => a = b && listStarts as bs

/-- Does `hay` contain `needle` as a contiguous subsequence?
Models JS `String.prototype.includes`. -/
def listHasSub (needle : List Char) : List Char → Bool
  | [] => needle.isEmpty
  | c :: rest => listStarts needle (c :: rest) || listHasSub needle rest

/-- Model of `hay.includes(needle)`. -/
def strIncludes (hay needle : String) : Bool := listHasSub needle.data hay.data

/-- Model of `hay.startsWith(needle)`. -/
def strStarts (hay needle : String) : Bool := listStarts needle.data hay.data

/-- Numeric value of a (non-empty, all-digit) decimal digit run. -/
def digitsVal (l : List Char) : Nat :=
  l.foldl (fun n c => n * 10 + (c.toNat - 48)) 0

/-- Model of `s.trim()`: strip leading and trailing whitespace. -/
def jsTrim (s : String) : String :=
  ⟨((s.data.dropWhile isJsSpace).reverse.dropWhile isJsSpace).reverse⟩

/-- Model of JS `s.split(sep)` for a single-character separator:
always returns at least one (possibly empty) segment. -/
def splitOnChar (sep : Char) : List Char → List (List Char)
  | [] => [[]]
  | c :: rest =>
    if c = sep then
      [] :: splitOnChar sep rest
    else
      match splitOnChar sep rest with
      | [] => [[c]]
      | seg :: segs => (c :: seg) :: segs

/-- Model of JS `s.split(sep).pop()` (the last segment; `split` never
returns an empty array, so `pop` always yields a segment). -/
def lastSegment (sep : Char) (s : String) : String :=
  ⟨(splitOnChar sep s.data).getLastD []⟩

/-- If `hay` starts (case-insensitively) with `needle`, return the rest. -/
def dropCaseless : List Char → List Char → Option (List Char)
  | [], hay => some hay
  | _ :: _, [] => none
  | n :: ns, c :: cs => if lowEqC n c then dropCaseless ns cs else none

/-- One fuel-indexed pass of `hay.replace(/needle/gi, '')`: delete every
case-insensitive occurrence, scanning left to right without re-scanning
the text produced by a deletion.  Fuel `hay.length` always suffices for
a non-empty needle because every step consumes at least one character. -/
def removeCaselessFuel (needle : List Char) : Nat → List Char → List Char
  | 0, hay => hay
  | _ + 1, [] => []
  | fuel + 1, c :: cs =>
    if needle.isEmpty then c :: cs
    else
      match dropCaseless needle (c :: cs) with
      | some rest => removeCaselessFuel needle fuel rest
      | none => c :: removeCaselessFuel needle fuel cs

/-- Model of `hay.replace(/needle/gi, '')`. -/
def removeCaseless (needle : String) (hay : List Char) : List Char :=
  removeCaselessFuel needle.data hay.length hay

/-- Leading decimal digit run of a character list, with its value;
`none` when the list does not start with a digit. -/
def digitsPrefixVal (s : List Char) : Option Nat :=
  let ds := s.takeWhile Char.isDigit
  if ds.isEmpty then none else some (digitsVal ds)

/-- Model of `parseInt(s, 10)` on a whitespace-free string: optional
sign, then a leading digit run (`none` models `NaN`). -/
def parseIntJS : List Char → Option Int
  | '-' :: rest => (digitsPrefixVal rest).map (fun n => -(n : Int))
  | '+' :: rest => (digitsPrefixVal rest).map (fun n => (n : Int))
  | s => (digitsPrefixVal s).map (fun n => (n : Int))

/-! ## Shared constants (`actors/shared/src/constants.ts`) -/

/-- Requests-per-minute budgets from `RATE_LIMITS`. -/
def RATE_LIMITS_sreality_rpm : Nat := 30

/-- Bezrealitky requests-per-minute budget. -/
def RATE_LIMITS_bezrealitky_rpm : Nat := 20

/-- CUZK requests-per-minute budget. -/
def RATE_LIMITS_cuzk_rpm : Nat := 10

/-- Table `CONDITION_MAP`: exact-match condition vocabulary (key, value). -/
def CONDITION_MAP : List (String × String) :=
  [("Novostavba", "new"),
   ("Velmi dobrý", "good"),
   ("Dobrý", "good"),
   ("Po rekonstrukci", "renovated"),
   ("Před rekonstrukcí", "to_renovate"),
   ("Špatný", "to_renovate"),
   ("Ve výstavbě", "construction"),
   ("Původní", "original"),
   ("Nová budova", "new"),
   ("new", "new"),
   ("good", "good"),
   ("renovated", "renovated"),
   ("original", "original"),
   ("to_renovate", "to_renovate")]

/-- Table `CONSTRUCTION_TYPE_MAP`: exact-match construction-type vocabulary. -/
def CONSTRUCTION_TYPE_MAP : List (String × String) :=
  [("Cihlová", "brick"),
   ("Panelová", "panel"),
   ("Smíšená", "mixed"),
   ("Skeletová", "skeleton"),
   ("Dřevostavba", "wood"),
   ("brick", "brick"),
   ("panel", "panel"),
   ("wood", "wood")]

/-- JS object-key lookup `MAP[key]` for the two vocabulary tables
(all values are non-empty strings, so JS truthiness of `MAP[key]`
coincides with key membership). -/
def lookupStr (m : List (String × String)) (k : String) : Option String :=
  (m.find? (fun p => p.1 = k)).map (fun p => p.2)

/-- Constant `SOURCES.sreality`. -/
def SOURCES_sreality : String := "sreality"

/-- Constant `SOURCES.bezrealitky`. -/
def SOURCES_bezrealitky : String := "bezrealitky"

/-- Constant `API_ENDPOINTS.bezrealitky`, the bezrealitky actor's `BASE_URL`. -/
def BASE_URL : String := "https://www.bezrealitky.cz"

/-! ## Parsers (`actors/shared/src/utils.ts`) -/

/-- Model of `parseRoomsCount`: `rooms.match(/^(\d+)/)` takes the
leading decimal digit run; its numeric value is returned, `undefined`
otherwise (and for the falsy empty string). -/
def parseRoomsCount (rooms : String) : Option Nat :=
  if rooms = "" then none
  else
    let ds := rooms.data.takeWhile Char.isDigit
    if ds.isEmpty then none else some (digitsVal ds)

/-- Model of `normalizeCondition`: exact-match lookup in
`CONDITION_MAP`, falling back to lower-casing the raw string. -/
def normalizeCondition (condition : Option String) : Option String :=
  match condition with
  | none => none
  | some s =>
    if s = "" then none
    else
      match lookupStr CONDITION_MAP s with
      | some v => some v
      | none => some (jsLowerStr s)

/-- Model of `normalizeConstructionType`: exact-match lookup in
`CONSTRUCTION_TYPE_MAP`, falling back to lower-casing. -/
def normalizeConstructionType (type : Option String) : Option String :=
  match type with
  | none => none
  | some s =>
    if s = "" then none
    else
      match lookupStr CONSTRUCTION_TYPE_MAP s with
      | some v => some v
      | none => some (jsLowerStr s)

/-- Model of `parsePrice`: strip whitespace, the `Kč`/`CZK` currency
markers (case-insensitive, global) and `,-`, then `parseInt(..., 10)`. -/
def parsePrice (priceStr : String) : Option Int :=
  if priceStr = "" then none
  else
    let noWs := priceStr.data.filter (fun c => !isJsSpace c)
    let noKc := removeCaseless "Kč" noWs
    let noCzk := removeCaseless "CZK" noKc
    let cleaned := removeCaseless ",-" noCzk
    parseIntJS cleaned

/-- Value of the first number at the head of `l` (which starts with a
digit): greedy digit run, then optionally `[.,]` followed by a further
digit run, as matched by `/(\d+(?:[.,]\d+)?)/`.  The matched text is fed
through `replace(',', '.')` and `parseFloat`; the model returns the
exact rational value. -/
def numberValueAt (l : List Char) : ℚ :=
  let ds := l.takeWhile Char.isDigit
  let intPart : ℚ := (digitsVal ds : ℚ)
  match l.drop ds.length with
  | p :: rest =>
    if p = '.' || p = ',' then
      let fs := rest.takeWhile Char.isDigit
      if fs.isEmpty then intPart
      else intPart + (digitsVal fs : ℚ) / (10 : ℚ) ^ fs.length
    else intPart
  | [] => intPart

/-- Leftmost match of `/(\d+(?:[.,]\d+)?)/`: scan for the first digit. -/
def findNumber : List Char → Option ℚ
  | [] => none
  | c :: rest => if c.isDigit then some (numberValueAt (c :: rest)) else findNumber rest

/-- Model of `parseArea`: first decimal number (comma or dot separator)
anywhere in the string; `undefined` when absent (or falsy input). -/
def parseArea (areaStr : String) : Option ℚ :=
  if areaStr = "" then none else findNumber areaStr.data

/-- The seven boolean amenity flags plus the two enumeration fields
produced by `extractFeatures`. -/
structure Features where
  has_balcony : Bool
  has_terrace : Bool
  has_parking : Bool
  has_garage : Bool
  has_elevator : Bool
  has_cellar : Bool
  has_garden : Bool
  condition : Option String
  construction_type : Option String
deriving Repr, DecidableEq

/-- Model of `extractFeatures`: case-insensitive substring matching of
the lower-cased labels against the fixed bilingual vocabularies for the
seven flags; `condition`/`construction_type` via
`labels.find(l => MAP[l]) ? normalize…(labels.find(l => MAP[l])) : undefined`. -/
def extractFeatures (labels : List String) : Features :=
  let labelsLower := labels.map jsLowerStr
  { has_balcony := labelsLower.any (fun l =>
      strIncludes l "balkon" || strIncludes l "balkón" || strIncludes l "balcony")
    has_terrace := labelsLower.any (fun l =>
      strIncludes l "terasa" || strIncludes l "terrace")
    has_parking := labelsLower.any (fun l =>
      strIncludes l "parkov" || strIncludes l "parking")
    has_garage := labelsLower.any (fun l =>
      strIncludes l "garáž" || strIncludes l "garage")
    has_elevator := labelsLower.any (fun l =>
      strIncludes l "výtah" || strIncludes l "elevator")
    has_cellar := labelsLower.any (fun l =>
      strIncludes l "sklep" || strIncludes l "cellar")
    has_garden := labelsLower.any (fun l =>
      strIncludes l "zahrad" || strIncludes l "garden")
    condition :=
      match labels.find? (fun l => (lookupStr CONDITION_MAP l).isSome) with
      | some l => normalizeCondition (some l)
      | none => none
    construction_type :=
      match labels.find? (fun l => (lookupStr CONSTRUCTION_TYPE_MAP l).isSome) with
      | some l => normalizeConstructionType (some l)
      | none => none }

/-- Model of `extractCity`: fixed city-name substring match first, then
comma-split taking the last segment's first space-separated word. -/
def extractCity (locality : String) : Option String :=
  if locality = "" then none
  else
    let cities := ["Praha", "Brno", "Ostrava", "Plzeň"]
    match cities.find? (fun city => strIncludes locality city) with
    | some city => some city
    | none =>
      let parts := (splitOnChar ',' locality.data).map (fun l => (⟨l⟩ : String))
      some ⟨((splitOnChar ' ' (jsTrim (parts.getLastD "")).data).headD [])⟩

/-- Model of `extractDistrict`: comma-split taking the first segment
when there are at least two; else `" - "`-split taking the second. -/
def extractDistrict (locality : String) : Option String :=
  if locality = "" then none
  else
    let parts := (splitOnChar ',' locality.data).map (fun l => (⟨l⟩ : String))
    if 2 ≤ parts.length then some (jsTrim (parts.headD ""))
    else
      let dashParts := (locality.splitOn " - ")
      if 2 ≤ dashParts.length then some (jsTrim (dashParts.getD 1 ""))
      else none

/-! ## Canonical data model (`actors/shared/src/types.ts`) -/

/-- Canonical `PropertyData` record (the TS interface, with `Option`
for optional fields and `some`/`none` distinguishing assigned
`undefined`-able fields from omitted ones only where the adapters
actually assign them). -/
structure PropertyData where
  external_id : String
  source : String
  title : String
  description : Option String := none
  property_type : String
  transaction_type : String
  price : Int
  currency : String
  area_usable : Option ℚ := none
  area_built : Option ℚ := none
  area_land : Option ℚ := none
  rooms : Option String := none
  rooms_count : Option Nat := none
  floor : Option Int := none
  floors_total : Option Int := none
  condition : Option String := none
  construction_type : Option String := none
  energy_rating : Option String := none
  has_balcony : Option Bool := none
  has_terrace : Option Bool := none
  has_parking : Option Bool := none
  has_garage : Option Bool := none
  has_elevator : Option Bool := none
  has_cellar : Option Bool := none
  has_garden : Option Bool := none
  address_street : Option String := none
  address_city : Option String := none
  address_district : Option String := none
  address_zip : Option String := none
  lat : Option ℚ := none
  lng : Option ℚ := none
  images : Option (List String) := none
  main_image_url : Option String := none
  url : String
deriving Repr, DecidableEq

/-- Shape of `SrealityEstate._embedded.images[i]._links.self`. -/
structure SrealityLink where
  href : String
deriving Repr, DecidableEq

/-- Shape of `SrealityEstate._embedded.images[i]._links`. -/
structure SrealityImageLinks where
  self : SrealityLink
deriving Repr, DecidableEq

/-- One entry of `SrealityEstate._embedded.images`. -/
structure SrealityImage where
  links : SrealityImageLinks
deriving Repr, DecidableEq

/-- Shape of `SrealityEstate._embedded`. -/
structure SrealityEmbedded where
  images : Option (List SrealityImage)
deriving Repr, DecidableEq

/-- Shape of `SrealityEstate.price_czk`. -/
structure SrealityPriceCzk where
  value_raw : Int
deriving Repr, DecidableEq

/-- Shape of `SrealityEstate.gps`. -/
structure SrealityGps where
  lat : ℚ
  lon : ℚ
deriving Repr, DecidableEq

/-- Shape of `SrealityEstate.seo`. -/
structure SrealitySeo where
  locality : String
deriving Repr, DecidableEq

/-- Raw sreality estate entry; fields the adapter dereferences with
`?.` are `Option` (the TS interface declares them non-optional, but
`parseEstate` guards them). -/
structure SrealityEstate where
  hash_id : Nat
  name : String
  locality : String
  price : Int
  price_czk : Option SrealityPriceCzk
  gps : Option SrealityGps
  labelsAll : Option (List String)
  seo : Option SrealitySeo
  embedded : Option SrealityEmbedded
deriving Repr, DecidableEq

/-- Shape of `BezrealitkyProperty.address`. -/
structure BezAddress where
  street : Option String := none
  city : Option String := none
  district : Option String := none
  zip : Option String := none
deriving Repr, DecidableEq

/-- Shape of `BezrealitkyProperty.gps`. -/
structure BezGps where
  lat : ℚ
  lng : ℚ
deriving Repr, DecidableEq

/-- Raw bezrealitky listing entry from the `__NEXT_DATA__` blob. -/
structure BezrealitkyProperty where
  id : String
  uri : String
  title : String
  mainImage : Option String := none
  price : Option Int := none
  surface : Option ℚ := none
  disposition : Option String := none
  address : Option BezAddress := none
  gps : Option BezGps := none
  features : Option (List String) := none
deriving Repr, DecidableEq

/-- One listing card extracted by the bezrealitky DOM fallback; every
field is a string, with `""` standing for a failed `$eval` (the code's
`.catch(() => '')`). -/
structure DomCard where
  title : String
  priceText : String
  areaText : String
  link : String
  imageUrl : String
deriving Repr, DecidableEq

/-! ## Sreality adapter normalization (`parseEstate`) -/

/-- First match of `/(\d\+(?:kk|1))/i` starting exactly here: one digit,
a `+`, then case-insensitive `kk` or the literal `1`. -/
def roomsAt (c : Char) : List Char → Option String
  | '+' :: a :: tail =>
    if c.isDigit then
      if lowEqC a 'k' then
        match tail with
        | b :: _ => if lowEqC b 'k' then some ⟨[c, '+', a, b]⟩ else none
        | [] => none
      else if a = '1' then some ⟨[c, '+', '1']⟩ else none
    else none
  | _ => none

/-- Leftmost match of `/(\d\+(?:kk|1))/i` over the whole name. -/
def findRooms : List Char → Option String
  | [] => none
  | c :: rest =>
    match roomsAt c rest with
    | some r => some r
    | none => findRooms rest

/-- Match of `/(\d+)\s*m²/` starting exactly here: greedy digit run,
optional whitespace, then the literal `m²`; yields `parseInt(match[1])`. -/
def areaAt (l : List Char) : Option Nat :=
  let ds := l.takeWhile Char.isDigit
  if ds.isEmpty then none
  else
    match (l.drop ds.length).dropWhile isJsSpace with
    | 'm' :: '²' :: _ => some (digitsVal ds)
    | _ => none

/-- Leftmost match of `/(\d+)\s*m²/` over the whole name. -/
def findArea : List Char → Option Nat
  | [] => none
  | c :: rest =>
    match areaAt (c :: rest) with
    | some n => some n
    | none => findArea rest

/-- The image URL list `estate._embedded?.images?.map(img =>
img._links.self.href) || []` (before the `slice`). -/
def estateImages (estate : SrealityEstate) : List String :=
  ((estate.embedded.bind (fun e => e.images)).getD []).map
    (fun img => img.links.self.href)

/-- Model of the sreality actor's `parseEstate`. -/
def parseEstate (estate : SrealityEstate) (propertyType transactionType : String) :
    PropertyData :=
  let features := extractFeatures (estate.labelsAll.getD [])
  let images := estateImages estate
  let rooms := findRooms estate.name.data
  let area := findArea estate.name.data
  { external_id := toString estate.hash_id
    source := SOURCES_sreality
    title := estate.name
    property_type := propertyType
    transaction_type := transactionType
    price :=
      match estate.price_czk with
      | some p => if p.value_raw = 0 then estate.price else p.value_raw
      | none => estate.price
    currency := "CZK"
    area_usable := area.map (fun n => (n : ℚ))
    rooms := rooms
    rooms_count :=
      match rooms with
      | some r => if r = "" then none else parseRoomsCount r
      | none => none
    address_city := extractCity estate.locality
    address_district := extractDistrict estate.locality
    lat := estate.gps.map (fun g => g.lat)
    lng := estate.gps.map (fun g => g.lon)
    images := some (images.take 10)
    main_image_url := images.head?
    url := "https://www.sreality.cz/detail/" ++
      (match estate.seo with
       | some s => if s.locality = "" then "nemovitost" else s.locality
       | none => "nemovitost") ++ "/" ++ toString estate.hash_id
    condition := features.condition
    construction_type := features.construction_type
    has_balcony := some features.has_balcony
    has_terrace := some features.has_terrace
    has_parking := some features.has_parking
    has_garage := some features.has_garage
    has_elevator := some features.has_elevator
    has_cellar := some features.has_cellar
    has_garden := some features.has_garden }

/-! ## Bezrealitky adapter normalization -/

/-- Model of the bezrealitky actor's `parseListingFromNextData`. -/
def parseListingFromNextData (data : BezrealitkyProperty)
    (propertyType transactionType : String) : PropertyData :=
  let features := extractFeatures (data.features.getD [])
  { external_id := data.id
    source := SOURCES_bezrealitky
    title := data.title
    property_type := propertyType
    transaction_type := transactionType
    price := (data.price).getD 0
    currency := "CZK"
    area_usable := data.surface
    rooms := data.disposition
    rooms_count :=
      match data.disposition with
      | some d => if d = "" then none else parseRoomsCount d
      | none => none
    address_street := data.address.bind (fun a => a.street)
    address_city := data.address.bind (fun a => a.city)
    address_district := data.address.bind (fun a => a.district)
    address_zip := data.address.bind (fun a => a.zip)
    lat := data.gps.map (fun g => g.lat)
    lng := data.gps.map (fun g => g.lng)
    images := some
      (match data.mainImage with
       | some m => if m = "" then [] else [m]
       | none => [])
    main_image_url := data.mainImage
    url := BASE_URL ++ data.uri
    condition := features.condition
    construction_type := features.construction_type
    has_balcony := some features.has_balcony
    has_terrace := some features.has_terrace
    has_parking := some features.has_parking
    has_garage := some features.has_garage
    has_elevator := some features.has_elevator
    has_cellar := some features.has_cellar
    has_garden := some features.has_garden }

/-- The DOM fallback's external id:
`link.split('/').pop() || ` followed by the fabricated
`br-${Date.now()}-${totalScraped}` template. -/
def domExternalId (link : String) (nowMs totalScraped : Nat) : String :=
  let seg := lastSegment '/' link
  if seg = "" then "br-" ++ toString nowMs ++ "-" ++ toString totalScraped
  else seg

/-- Model of the `PropertyData` literal built by the bezrealitky DOM
fallback for one listing card (`requestUrl` is `request.url`; `nowMs`
is `Date.now()`; `totalScraped` the running counter at that moment). -/
def domCardRecord (card : DomCard) (requestUrl : String)
    (nowMs totalScraped : Nat) : PropertyData :=
  { external_id := domExternalId card.link nowMs totalScraped
    source := SOURCES_bezrealitky
    title := card.title
    property_type := if strIncludes requestUrl "/byt" then "apartment" else "house"
    transaction_type := if strIncludes requestUrl "/prodej" then "sale" else "rent"
    price := (parsePrice card.priceText).getD 0
    currency := "CZK"
    area_usable := parseArea card.areaText
    main_image_url := some card.imageUrl
    url := if strStarts card.link "http" then card.link else BASE_URL ++ card.link }

/-! ## Sreality job orchestration (`actors/sreality` main)

The per-run mutable state is the running `totalScraped` counter; network
effects are supplied by oracles: `oracle page` is the `fetchEstates`
result for that page (`none` models a thrown request error), and
`ok i` says whether the `i`-th issued save/push pair (counted across the
whole run) completes without throwing.  A save call is issued for every
entry that is not skipped by the cutoff check; `totalScraped` is
incremented only when both the save and the dataset push succeed,
exactly as in the per-entry `try`/`catch`. -/

/-- One page of the sreality list API, as the page loop consumes it:
the embedded estates plus the two pagination counters echoed back. -/
structure SrealityResponseM where
  estates : List SrealityEstate
  per_page : Nat
  result_size : Nat
deriving Repr, DecidableEq

/-- Observable counters of a (partial) run: the running `totalScraped`,
the number of save calls issued, and the list of pages fetched, in
order. -/
structure RunCounters where
  total : Nat
  issued : Nat
  pages : List Nat
deriving Repr, DecidableEq

/-- The `for (const estate of estates)` loop body chain: before each
entry the running total is re-checked against the cutoff; a processed
entry issues one save call and increments the total iff the save/push
pair succeeds.  Returns the updated `(total, issued)`. -/
def processEstates (ok : Nat → Bool) (maxProperties : Nat) :
    List SrealityEstate → Nat → Nat → Nat × Nat
  | [], total, issued => (total, issued)
  | _ :: rest, total, issued =>
    if maxProperties ≤ total then (total, issued)
    else
      processEstates ok maxProperties rest
        (if ok issued then total + 1 else total) (issued + 1)

/-- The `while (hasMore && totalScraped < maxProperties)` page loop of
one (city, category) work unit, fuel-indexed (the source loop
terminates because pages advance; fuel bounds the pages examined). -/
def runSrealityUnit (oracle : Nat → Option SrealityResponseM) (ok : Nat → Bool)
    (maxProperties : Nat) : Nat → Nat → RunCounters → RunCounters
  | 0, _, st => st
  | fuel + 1, page, st =>
    if maxProperties ≤ st.total then st
    else
      match oracle page with
      | none => { st with pages := st.pages ++ [page] }
      | some resp =>
        let st1 : RunCounters := { st with pages := st.pages ++ [page] }
        if resp.estates.isEmpty then st1
        else
          let ti := processEstates ok maxProperties resp.estates st1.total st1.issued
          let st2 : RunCounters := { st1 with total := ti.1, issued := ti.2 }
          if resp.result_size ≤ page * resp.per_page then st2
          else runSrealityUnit oracle ok maxProperties fuel (page + 1) st2

/-- The nested city/property-type/transaction-type loops: each work
unit runs its own page loop starting at page 1, threading the shared
counters (a unit whose `while` guard fails immediately contributes
nothing). -/
def runSrealityJob (ok : Nat → Bool) (maxProperties fuel : Nat) :
    List (Nat → Option SrealityResponseM) → RunCounters → RunCounters
  | [], st => st
  | oracle :: rest, st =>
    runSrealityJob ok maxProperties fuel rest
      (runSrealityUnit oracle ok maxProperties fuel 1 st)

/-! ## Bezrealitky job orchestration (`actors/bezrealitky` main)

The Playwright router's default handler is modelled per request; the
crawler's request queue (maxConcurrency = 1) is a FIFO list.  A page is
either a parsed `__NEXT_DATA__` blob with its listings array, a blob
that fails to parse, or the DOM fallback with its extracted cards. -/

/-- What one bezrealitky page yields to the handler. -/
inductive BezPage where
  | nextData (listings : List BezrealitkyProperty)
  | badJson
  | dom (cards : List DomCard)

/-- The structured-path `for (const listing of listings)` loop:
identical cutoff/save/count structure to the sreality entry loop. -/
def handleListings (ok : Nat → Bool) (maxProperties : Nat) :
    List BezrealitkyProperty → Nat → Nat → Nat × Nat
  | [], total, issued => (total, issued)
  | _ :: rest, total, issued =>
    if maxProperties ≤ total then (total, issued)
    else
      handleListings ok maxProperties rest
        (if ok issued then total + 1 else total) (issued + 1)

/-- The DOM-fallback `for (const card of propertyCards)` loop: skips a
card when `!title || !link`; otherwise builds the record (using the
wall clock `nowMs i` of the `i`-th issued save and the current running
total), issues the save, and increments the total iff the save/push
pair succeeds.  Also accumulates the records for which a save was
issued. -/
def processCards (ok : Nat → Bool) (nowMs : Nat → Nat) (maxProperties : Nat)
    (requestUrl : String) :
    List DomCard → Nat → Nat → List PropertyData → Nat × Nat × List PropertyData
  | [], total, issued, acc => (total, issued, acc)
  | card :: rest, total, issued, acc =>
    if maxProperties ≤ total then (total, issued, acc)
    else if card.title = "" || card.link = "" then
      processCards ok nowMs maxProperties requestUrl rest total issued acc
    else
      processCards ok nowMs maxProperties requestUrl rest
        (if ok issued then total + 1 else total) (issued + 1)
        (acc ++ [domCardRecord card requestUrl (nowMs issued) total])

/-- One request in the crawler queue: the search URL (carrying the
`/byt`‑style type markers) and its `page` query parameter. -/
structure BezRequest where
  url : String
  page : Nat

/-- FIFO processing of the crawler's request queue.  The handler first
re-checks the cutoff; on a structured page it processes the listings
and re-queues `page + 1` when the page was non-empty and the cutoff is
still unmet; the DOM fallback and a JSON parse failure enqueue
nothing. -/
def runBezQueue (oracle : String → Nat → BezPage) (ok : Nat → Bool)
    (nowMs : Nat → Nat) (maxProperties : Nat) :
    Nat → List BezRequest → Nat → Nat → List PropertyData →
    Nat × Nat × List PropertyData
  | 0, _, total, issued, acc => (total, issued, acc)
  | _ + 1, [], total, issued, acc => (total, issued, acc)
  | fuel + 1, req :: queue, total, issued, acc =>
    if maxProperties ≤ total then
      runBezQueue oracle ok nowMs maxProperties fuel queue total issued acc
    else
      match oracle req.url req.page with
      | .badJson => runBezQueue oracle ok nowMs maxProperties fuel queue total issued acc
      | .dom cards =>
        let r := processCards ok nowMs maxProperties req.url cards total issued acc
        runBezQueue oracle ok nowMs maxProperties fuel queue r.1 r.2.1 r.2.2
      | .nextData listings =>
        let ti := handleListings ok maxProperties listings total issued
        let queue' :=
          if !listings.isEmpty && ti.1 < maxProperties then
            queue ++ [{ url := req.url, page := req.page + 1 }]
          else queue
        runBezQueue oracle ok nowMs maxProperties fuel queue' ti.1 ti.2 acc

/-! ## RateLimiter (`actors/shared/src/utils.ts`)

Time is a `Nat` of epoch milliseconds.  `rlWait m last now` is the
instant at which `wait()` returns (and stores it as the new
`lastRequestTime`), called at instant `now` with stored state `last`:
the computed `waitTime = max(0, minDelay - elapsed)` is slept exactly
(a longer real sleep only increases every spacing below). -/

/-- Spacing `Math.ceil(60000 / requestsPerMinute)`. -/
def minDelayMs (requestsPerMinute : Nat) : Nat :=
  (60000 + requestsPerMinute - 1) / requestsPerMinute

/-- Completion instant of one `wait()` call: `now` plus the computed
`waitTime` (`Nat` subtraction realises the `Math.max(0, …)`). -/
def rlWait (minDelay last now : Nat) : Nat :=
  now + (minDelay - (now - last))

/-- Completion instant of the last of a chain of `wait()` calls: the
first call arrives at `t1` with the initial `lastRequestTime = 0`, and
each later call arrives `gap` milliseconds after the previous call's
completion (the caller's own work between requests). -/
def rlNth (minDelay t1 : Nat) (gaps : List Nat) : Nat :=
  gaps.foldl (fun c gap => rlWait minDelay c (c + gap)) (rlWait minDelay 0 t1)

/-! ## Retry helper (`actors/shared/src/utils.ts` `retry`)

The fallible operation is an oracle `f : Nat → Except E A` giving the
outcome of each invocation (invocations counted from 0, the loop's
`attempt` variable).  The model returns the overall outcome (where
`Except.error none` is the `throw lastError` of an `undefined`
`lastError`, reachable only when `maxRetries = 0`), the number of
invocations performed, and the list of back-off delays slept. -/

/-- The `for (let attempt = 0; attempt < maxRetries; attempt++)` loop
from iteration `attempt` on, with `lastError` so far.  The loop guard
`attempt < maxRetries` is carried as the structurally decreasing
`remaining = maxRetries - attempt` (zero exactly when the guard fails);
the non-final-attempt test `attempt < maxRetries - 1` is kept verbatim. -/
def retryGo (f : Nat → Except E A) (baseDelay maxRetries : Nat) :
    Nat → Nat → Option E → Except (Option E) A × Nat × List Nat
  | 0, _, lastErr => (.error lastErr, 0, [])
  | remaining + 1, attempt, _lastErr =>
    match f attempt with
    | .ok a => (.ok a, 1, [])
    | .error e =>
      let tail := retryGo f baseDelay maxRetries remaining (attempt + 1) (some e)
      (tail.1, tail.2.1 + 1,
        (if attempt < maxRetries - 1 then [baseDelay * 2 ^ attempt] else []) ++ tail.2.2)

/-- Model of `retry(fn, maxRetries, baseDelay)`: run the loop from
`attempt = 0` with no `lastError` yet. -/
def retryModel (f : Nat → Except E A) (maxRetries baseDelay : Nat) :
    Except (Option E) A × Nat × List Nat :=
  retryGo f baseDelay maxRetries maxRetries 0 none

/-! ## CUZK enrichment (`actors/cuzk` main) -/

/-- Record `CadastralData` as produced by the lookup parsers. -/
structure CadastralData where
  cadastral_number : Option String := none
  cadastral_area : Option String := none
  ownership_type : Option String := none
  liens_count : Option Nat := none
deriving Repr, DecidableEq

/-- Outcome of one network lookup attempt: a thrown/transient error, a
response with no usable feature, or parsed data. -/
inductive LookupOutcome where
  | err
  | noData
  | found (d : CadastralData)

/-- What `fetchFromRuian`/`fetchCadastralData` return for one attempt
outcome: both catch their own errors and return `null` for error and
no-data alike. -/
def lookupResult : LookupOutcome → Option CadastralData
  | .err => none
  | .noData => none
  | .found d => some d

/-- Per-property observables of the enrichment loop body. -/
structure EnrichResult where
  enriched : Bool
  ruianCalls : Nat
  wfsCalls : Nat
deriving Repr, DecidableEq

/-- The enrichment loop body for one property: one `fetchFromRuian`
invocation; iff it yields `null`, one `fetchCadastralData` invocation;
the property counts as enriched iff either yields data.  The oracles
give the outcome of the `i`-th invocation of each lookup for this
property, so a retrying implementation would consult indices ≥ 1. -/
def enrichOne (ruian wfs : Nat → LookupOutcome) : EnrichResult :=
  match lookupResult (ruian 0) with
  | some _ => { enriched := true, ruianCalls := 1, wfsCalls := 0 }
  | none =>
    match lookupResult (wfs 0) with
    | some _ => { enriched := true, ruianCalls := 1, wfsCalls := 1 }
    | none => { enriched := false, ruianCalls := 1, wfsCalls := 1 }

/-! ## Supporting lemmas -/

/-- Function `takeWhile` consumes exactly a prefix all of whose characters
satisfy `p` when the following character (if any) does not. -/
theorem takeWhile_all_append {p : Char → Bool} :
    ∀ (ds rest : List Char), (∀ c ∈ ds, p c = true) →
      (∀ c, rest.head? = some c → p c = false) →
      (ds ++ rest).takeWhile p = ds := by
  intro ds
  induction ds with
  | nil =>
    intro rest _ hrest
    cases rest with
    | nil => rfl
    | cons c cs => simp [List.takeWhile_cons, hrest c rfl]
  | cons d ds ih =>
    intro rest hds hrest
    have hd : p d = true := hds d (by simp)
    simp [List.takeWhile_cons, hd]
    exact ih rest (fun c hc => hds c (by simp [hc])) hrest

/-- A string is empty exactly when its character list is. -/
theorem string_eq_empty_iff (s : String) : s = "" ↔ s.data = [] := by
  constructor
  · intro h; subst h; rfl
  · intro h; cases s; subst h; rfl

/-! ## Claim C7 -/

/-- Claim C7: for every input string with a leading run of decimal
digits, `parseRoomsCount` returns the numeric value of that leading
integer run, and for every string without a leading digit (including
the empty string) it returns `none`; the model is total by
construction, so no input can make it throw. -/
theorem parseRoomsCount_spec :
    (∀ ds rest : List Char, ds ≠ [] → (∀ c ∈ ds, c.isDigit = true) →
      (∀ c, rest.head? = some c → c.isDigit = false) →
      parseRoomsCount ⟨ds ++ rest⟩ = some (digitsVal ds)) ∧
    (∀ s : String, (∀ c, s.data.head? = some c → c.isDigit = false) →
      parseRoomsCount s = none) := by
  constructor
  · intro ds rest hne hds hrest
    have hmk : (⟨ds ++ rest⟩ : String) ≠ "" := by
      intro h
      rw [string_eq_empty_iff] at h
      simp at h
      exact hne h.1
    simp only [parseRoomsCount, if_neg hmk]
    rw [takeWhile_all_append ds rest hds hrest]
    simp [List.isEmpty_iff, hne]
  · intro s hs
    by_cases h : s = ""
    · simp [parseRoomsCount, h]
    · simp only [parseRoomsCount, if_neg h]
      cases hd : s.data with
      | nil => simp [hd]
      | cons c cs => simp [hd, List.takeWhile_cons, hs c (by rw [hd]; rfl)]

/-- Witness for C7 at concrete inputs: `"2+kk" → 2`, `"3+1" → 3`, and
no leading digit → absent. -/
theorem parseRoomsCount_spec_witness :
    parseRoomsCount "2+kk" = some 2 ∧ parseRoomsCount "3+1" = some 3 ∧
      parseRoomsCount "+kk" = none := by
  refine ⟨?_, ?_, parseRoomsCount_spec.2 "+kk" (fun c hc => by cases hc; rfl)⟩
  · exact parseRoomsCount_spec.1 ['2'] ['+', 'k', 'k'] (by simp) (by decide)
      (fun c hc => by cases hc; rfl)
  · exact parseRoomsCount_spec.1 ['3'] ['+', '1'] (by simp) (by decide)
      (fun c hc => by cases hc; rfl)

/-! ## Claim C10 -/

/-- Claim C10: every `PropertyData` constructed by `parseEstate` has an
images list of length at most 10; whenever the source estate carries at
least one embedded image, `main_image_url` equals the first element of
that images list; when it carries none, the images list is empty and
`main_image_url` is absent. -/
theorem parseEstate_images_spec (estate : SrealityEstate) (pt tt : String) :
    ((parseEstate estate pt tt).images.getD []).length ≤ 10 ∧
    (estateImages estate ≠ [] →
      (parseEstate estate pt tt).main_image_url =
        ((parseEstate estate pt tt).images.getD []).head? ∧
      (parseEstate estate pt tt).images.getD [] ≠ []) ∧
    (estateImages estate = [] →
      (parseEstate estate pt tt).images = some [] ∧
      (parseEstate estate pt tt).main_image_url = none) := by
  refine ⟨?_, ?_, ?_⟩
  · simp [parseEstate]
  · intro h
    cases hl : estateImages estate with
    | nil => exact absurd hl h
    | cons a l => simp [parseEstate, hl]
  · intro h
    simp [parseEstate, h]

/-- A concrete estate carrying two embedded images. -/
def estateWithImages : SrealityEstate :=
  { hash_id := 3968453452
    name := "Prodej bytu 2+kk 65 m²"
    locality := "Smíchov, Praha 5"
    price := 5990000
    price_czk := some ⟨5990000⟩
    gps := some ⟨5007/100, 1440/100⟩
    labelsAll := some ["Novostavba", "Výtah"]
    seo := some ⟨"praha-smichov"⟩
    embedded := some ⟨some [⟨⟨⟨"https://img.example/1.jpg"⟩⟩⟩,
                            ⟨⟨⟨"https://img.example/2.jpg"⟩⟩⟩]⟩ }

/-- A concrete estate carrying no embedded images. -/
def estateNoImages : SrealityEstate :=
  { hash_id := 17, name := "Prodej domu 3+1", locality := "Brno",
    price := 0, price_czk := none, gps := none, labelsAll := none,
    seo := none, embedded := none }

/-- Witness for C10: the three conjuncts discharged at concrete estates
with and without embedded images. -/
theorem parseEstate_images_spec_witness :
    ((parseEstate estateWithImages "apartment" "sale").images.getD []).length ≤ 10 ∧
    (parseEstate estateWithImages "apartment" "sale").main_image_url =
      ((parseEstate estateWithImages "apartment" "sale").images.getD []).head? ∧
    (parseEstate estateNoImages "house" "sale").images = some [] ∧
    (parseEstate estateNoImages "house" "sale").main_image_url = none := by
  refine ⟨(parseEstate_images_spec estateWithImages "apartment" "sale").1,
    ((parseEstate_images_spec estateWithImages "apartment" "sale").2.1 (by decide)).1,
    ((parseEstate_images_spec estateNoImages "house" "sale").2.2 (by decide)).1,
    ((parseEstate_images_spec estateNoImages "house" "sale").2.2 (by decide)).2⟩

/-! ## Claim C3 -/

/-- A card whose link's last `/`-segment is empty: the DOM fallback
fabricates its external id from the wall clock and the running count. -/
def trailingSlashCard : DomCard :=
  { title := "Byt 2+kk, Praha", priceText := "5 000 000 Kč",
    areaText := "65 m²", link := "/nemovitost/", imageUrl := "" }

/-- Claim C3 counterexample: processing the same DOM listing card at a
different wall-clock instant and running scraped-count yields a
different `external_id`, so the external id fabricated by the DOM
fallback is not a function of the source item's content alone. -/
theorem external_id_clock_cex :
    (domCardRecord trailingSlashCard "https://www.bezrealitky.cz/prodej/byt/praha?page=1"
        1700000000000 0).external_id ≠
      (domCardRecord trailingSlashCard "https://www.bezrealitky.cz/prodej/byt/praha?page=1"
        1700000000001 1).external_id := by decide

/-- Claim C3, amended: the sreality id (`hash_id` stringified) and the
structured bezrealitky id (`data.id`) are deterministic functions of
the source item alone; the DOM-fallback id is deterministic exactly
when the extracted link's last `/`-separated segment is non-empty —
when it is empty the code fabricates `br-<Date.now()>-<totalScraped>`. -/
theorem external_id_deterministic_amended :
    (∀ (e : SrealityEstate) (pt tt : String),
      (parseEstate e pt tt).external_id = toString e.hash_id) ∧
    (∀ (d : BezrealitkyProperty) (pt tt : String),
      (parseListingFromNextData d pt tt).external_id = d.id) ∧
    (∀ (card : DomCard) (url : String) (now1 c1 now2 c2 : Nat),
      lastSegment '/' card.link ≠ "" →
      (domCardRecord card url now1 c1).external_id =
        (domCardRecord card url now2 c2).external_id) := by
  refine ⟨fun e pt tt => rfl, fun d pt tt => rfl, ?_⟩
  intro card url n1 c1 n2 c2 h
  simp [domCardRecord, domExternalId, if_neg h]

/-- A card whose link ends in a non-empty slug. -/
def sluggedCard : DomCard :=
  { title := "Dům 5+1", priceText := "", areaText := "",
    link := "/nemovitost/byt-praha-123", imageUrl := "" }

/-- Witness for C3 (amended) at a concrete card with a non-empty last
link segment: the id is the same at two different clocks/counts. -/
theorem external_id_deterministic_amended_witness :
    (domCardRecord sluggedCard "u" 1700000000000 0).external_id =
      (domCardRecord sluggedCard "u" 1700000000001 7).external_id :=
  external_id_deterministic_amended.2.2 sluggedCard "u"
    1700000000000 0 1700000000001 7 (by decide)

/-! ## Claim C8 -/

/-- Claim C8 counterexample: for a label list whose only label is
absent from both tables, the extracted condition is absent — not the
lower-cased raw label as the claim states. -/
theorem features_condition_cex :
    (extractFeatures ["Unmapped Label"]).condition = none ∧
      (extractFeatures ["Unmapped Label"]).condition ≠
        some (jsLowerStr "Unmapped Label") := by decide

/-- Claim C8, amended: `extractFeatures` sets `condition` and
`construction_type` by exact-match lookup of the first label present in
the respective table, and leaves them absent when no label is in the
table; the lower-casing fallback lives only inside
`normalizeCondition`/`normalizeConstructionType` (where an unmapped
non-empty input is indeed lower-cased) and is unreachable from
`extractFeatures`. -/
theorem features_condition_spec :
    (∀ labels : List String, (extractFeatures labels).condition =
      (labels.find? (fun l => (lookupStr CONDITION_MAP l).isSome)).bind
        (lookupStr CONDITION_MAP)) ∧
    (∀ labels : List String, (extractFeatures labels).construction_type =
      (labels.find? (fun l => (lookupStr CONSTRUCTION_TYPE_MAP l).isSome)).bind
        (lookupStr CONSTRUCTION_TYPE_MAP)) ∧
    (∀ s : String, lookupStr CONDITION_MAP s = none → s ≠ "" →
      normalizeCondition (some s) = some (jsLowerStr s)) ∧
    (∀ s : String, lookupStr CONSTRUCTION_TYPE_MAP s = none → s ≠ "" →
      normalizeConstructionType (some s) = some (jsLowerStr s)) := by
  refine ⟨?_, ?_, ?_, ?_⟩
  · intro labels
    simp only [extractFeatures]
    cases h : labels.find? (fun l => (lookupStr CONDITION_MAP l).isSome) with
    | none => simp
    | some l =>
      have hp := List.find?_some h
      obtain ⟨v, hv⟩ := Option.isSome_iff_exists.mp hp
      have hl : l ≠ "" := by
        intro he
        rw [he, show lookupStr CONDITION_MAP "" = none from by decide] at hv
        cases hv
      simp [normalizeCondition, hl, hv]
  · intro labels
    simp only [extractFeatures]
    cases h : labels.find? (fun l => (lookupStr CONSTRUCTION_TYPE_MAP l).isSome) with
    | none => simp
    | some l =>
      have hp := List.find?_some h
      obtain ⟨v, hv⟩ := Option.isSome_iff_exists.mp hp
      have hl : l ≠ "" := by
        intro he
        rw [he, show lookupStr CONSTRUCTION_TYPE_MAP "" = none from by decide] at hv
        cases hv
      simp [normalizeConstructionType, hl, hv]
  · intro s hs hne
    simp [normalizeCondition, hne, hs]
  · intro s hs hne
    simp [normalizeConstructionType, hne, hs]

/-- Witness for C8 (amended) at concrete inputs: a mapped label is
looked up exactly; an unmapped one leaves the field absent; and the
normalizers' lower-casing fallback in isolation. -/
theorem features_condition_spec_witness :
    (extractFeatures ["Novostavba"]).condition = some "new" ∧
    (extractFeatures ["Panelová"]).construction_type = some "panel" ∧
    normalizeCondition (some "Unmapped Label") = some "unmapped label" ∧
    normalizeConstructionType (some "Steel Frame") = some "steel frame" := by
  refine ⟨?_, ?_, ?_, ?_⟩
  · rw [features_condition_spec.1 ["Novostavba"]]; decide
  · rw [features_condition_spec.2.1 ["Panelová"]]; decide
  · rw [features_condition_spec.2.2.1 "Unmapped Label" (by decide) (by decide)]; decide
  · rw [features_condition_spec.2.2.2 "Steel Frame" (by decide) (by decide)]; decide

/-! ## Claim C9 -/

/-- A lookup outcome oracle describing a transient failure: the first
invocation errors, every later one would succeed. -/
def transientThenOk : Nat → LookupOutcome :=
  fun i => if i = 0 then .err else .found {}

/-- Claim C9 counterexample: with transiently failing lookups (failing
once, succeeding on any retry), the enrichment loop body performs
exactly one invocation of each lookup tier and counts the property as
failed — while the repository's own `retry` helper at its default
attempt limit of 3 would have returned the data.  The lookups are not
executed under the retry policy. -/
theorem enrich_no_retry_cex :
    enrichOne transientThenOk transientThenOk =
      { enriched := false, ruianCalls := 1, wfsCalls := 1 } ∧
    (retryModel (fun i =>
        match transientThenOk i with
        | .found d => Except.ok d
        | _ => Except.error ()) 3 1000).1 = Except.ok ({} : CadastralData) :=
  ⟨rfl, rfl⟩

/-- Claim C9, amended: each property's enrichment issues exactly one
RUIAN invocation and at most one WFS invocation (one iff RUIAN yielded
nothing); when both yield nothing — error and no-data alike — the
property is immediately counted as failed, with no retry of either
lookup. -/
theorem enrich_no_retry_spec (ruian wfs : Nat → LookupOutcome) :
    (enrichOne ruian wfs).ruianCalls = 1 ∧
    (enrichOne ruian wfs).wfsCalls ≤ 1 ∧
    (lookupResult (ruian 0) = none → lookupResult (wfs 0) = none →
      enrichOne ruian wfs = { enriched := false, ruianCalls := 1, wfsCalls := 1 }) := by
  unfold enrichOne
  cases h1 : lookupResult (ruian 0) with
  | some d => simp [h1]
  | none =>
    cases h2 : lookupResult (wfs 0) with
    | some d => simp [h2]
    | none => simp [h2]

/-- Witness for C9 (amended) at the transient-failure oracle. -/
theorem enrich_no_retry_spec_witness :
    enrichOne transientThenOk (fun _ => .noData) =
      { enriched := false, ruianCalls := 1, wfsCalls := 1 } :=
  (enrich_no_retry_spec transientThenOk (fun _ => .noData)).2.2 rfl rfl

/-! ## Claim C4 -/

/-- Run of the retry loop that fails `s` times from `attempt` on and
then succeeds: returns the success value after `s + 1` invocations with
one back-off delay per failure. -/
theorem retryGo_success {E A : Type} (f : Nat → Except E A) (b m : Nat) (a : A) :
    ∀ (s attempt : Nat) (le : Option E),
      attempt + s < m →
      (∀ i, attempt ≤ i → i < attempt + s → ∃ e, f i = Except.error e) →
      f (attempt + s) = Except.ok a →
      retryGo f b m (m - attempt) attempt le =
        (Except.ok a, s + 1, (List.range' attempt s).map (fun i => b * 2 ^ i)) := by
  intro s
  induction s with
  | zero =>
    intro attempt le hlt _ hok
    obtain ⟨r, hr⟩ : ∃ r, m - attempt = r + 1 := ⟨m - attempt - 1, by omega⟩
    rw [hr]
    rw [Nat.add_zero] at hok
    simp [retryGo, hok]
  | succ s ih =>
    intro attempt le hlt hfail hok
    obtain ⟨e, he⟩ := hfail attempt (Nat.le_refl _) (by omega)
    obtain ⟨r, hr⟩ : ∃ r, m - attempt = r + 1 := ⟨m - attempt - 1, by omega⟩
    have hr2 : r = m - (attempt + 1) := by omega
    rw [hr, hr2]
    simp only [retryGo, he]
    rw [ih (attempt + 1) (some e) (by omega)
      (fun i h1 h2 => hfail i (by omega) (by omega))
      (by rw [show attempt + 1 + s = attempt + (s + 1) from by omega]; exact hok)]
    have hfin : attempt < m - 1 := by omega
    simp [hfin, List.range'_succ]

/-- Run of the retry loop in which every invocation fails: performs all
remaining invocations and propagates the last failure. -/
theorem retryGo_allfail {E A : Type} (f : Nat → Except E A) (b m : Nat) (es : Nat → E)
    (hf : ∀ i, f i = Except.error (es i)) :
    ∀ (r attempt : Nat) (le : Option E), attempt + r = m → 0 < r →
      retryGo f b m r attempt le =
        (Except.error (some (es (m - 1))), r,
          (List.range' attempt (m - 1 - attempt)).map (fun i => b * 2 ^ i)) := by
  intro r
  induction r with
  | zero => intro _ _ _ h0; omega
  | succ r ih =>
    intro attempt le hsum _
    simp only [retryGo, hf attempt]
    by_cases hr : r = 0
    · subst hr
      have ha : attempt = m - 1 := by omega
      simp [retryGo, ha]
    · rw [ih (attempt + 1) (some (es attempt)) (by omega) (by omega)]
      have hfin : attempt < m - 1 := by omega
      have hcount : m - 1 - attempt = (m - 1 - (attempt + 1)) + 1 := by omega
      simp only [hfin, if_pos, hcount, List.range'_succ]
      simp

/-- Claim C4: if the operation fails on its first `k − 1` invocations
and succeeds on the `k`-th with `k ≤ m`, `retry` returns the success
value after exactly `k` invocations, sleeping `b × 2^attempt` ms after
each failed non-final attempt (attempts counted from 0); if it fails on
every invocation, `retry` performs exactly `m` invocations and then
propagates the last failure. -/
theorem retry_spec :
    (∀ (E A : Type) (f : Nat → Except E A) (m b k : Nat) (a : A),
      1 ≤ k → k ≤ m →
      (∀ i, i < k - 1 → ∃ e, f i = Except.error e) →
      f (k - 1) = Except.ok a →
      retryModel f m b =
        (Except.ok a, k, (List.range (k - 1)).map (fun i => b * 2 ^ i))) ∧
    (∀ (E A : Type) (f : Nat → Except E A) (m b : Nat) (es : Nat → E),
      1 ≤ m → (∀ i, f i = Except.error (es i)) →
      retryModel f m b =
        (Except.error (some (es (m - 1))), m,
          (List.range (m - 1)).map (fun i => b * 2 ^ i))) := by
  constructor
  · intro E A f m b k a hk hkm hfail hok
    have h := retryGo_success f b m a (k - 1) 0 none (by omega)
      (fun i _ h2 => hfail i (by omega))
      (by rw [Nat.zero_add]; exact hok)
    rw [Nat.sub_zero] at h
    rw [retryModel, h, show k - 1 + 1 = k from by omega,
      show List.range' 0 (k - 1) = List.range (k - 1) from
        (List.range_eq_range' (k - 1)).symm]
  · intro E A f m b es hm hf
    have h := retryGo_allfail f b m es hf m 0 none (by omega) (by omega)
    rw [Nat.sub_zero] at h
    rw [retryModel, h,
      show List.range' 0 (m - 1) = List.range (m - 1) from
        (List.range_eq_range' (m - 1)).symm]

/-- An operation failing once, then succeeding. -/
def retryWitnessOp : Nat → Except String Nat :=
  fun i => if i = 1 then .ok 42 else .error "boom"

/-- Witness for C4 at concrete operations: fail-once-then-succeed with
`m = 3, b = 5` gives 2 invocations and one 5 ms delay; always-fail with
`m = 2, b = 7` gives 2 invocations, one 7 ms delay, and the last
error. -/
theorem retry_spec_witness :
    retryModel retryWitnessOp 3 5 = (.ok 42, 2, [5]) ∧
    retryModel (fun i => (.error (toString i) : Except String Nat)) 2 7 =
      (.error (some "1"), 2, [7]) := by
  constructor
  · have h := retry_spec.1 String Nat retryWitnessOp 3 5 2 42 (by omega) (by omega)
      (fun i hi => ⟨"boom", by interval_cases i; rfl⟩) rfl
    simpa using h
  · have h := retry_spec.2 String Nat (fun i => .error (toString i)) 2 7
      (fun i => toString i) (by omega) (fun i => rfl)
    simpa using h

/-! ## Claim C5 -/

/-- One `wait()` completes no earlier than its arrival and no earlier
than `minDelay` after the stored previous completion. -/
theorem rlWait_spacing (m last now : Nat) (h : last ≤ now) :
    last + m ≤ rlWait m last now ∧ now ≤ rlWait m last now := by
  unfold rlWait
  omega

/-- Chaining `wait()` calls: each consecutive completion is at least
`m` after the previous one, so the last of `gaps.length` further calls
completes at least `gaps.length × m` after the first. -/
theorem rlFold_spacing (m : Nat) :
    ∀ (gaps : List Nat) (c : Nat),
      c + gaps.length * m ≤ gaps.foldl (fun c gap => rlWait m c (c + gap)) c := by
  intro gaps
  induction gaps with
  | nil => intro c; simp
  | cons g gs ih =>
    intro c
    have h1 : c + m ≤ rlWait m c (c + g) := (rlWait_spacing m c (c + g) (by omega)).1
    have h2 := ih (rlWait m c (c + g))
    simp only [List.foldl_cons, List.length_cons]
    calc c + (gs.length + 1) * m = (c + m) + gs.length * m := by ring
    _ ≤ rlWait m c (c + g) + gs.length * m := by omega
    _ ≤ _ := h2

/-- Claim C5: for a limiter with budget `rpm` requests/minute (minimum
spacing `ceil(60000 / rpm)` ms), the first `wait()` never suspends
(given the real-time clock reads at least one spacing past epoch 0, the
initial `lastRequestTime`); every later call completes at least one
spacing after the previous call's completion; and across `N = gaps.length
+ 1` consecutive single-caller invocations the last request instant is
at least `(N − 1) × ceil(60000/rpm)` ms after the first. -/
theorem rateLimiter_spec (rpm t1 : Nat) (gaps : List Nat)
    (hfirst : minDelayMs rpm ≤ t1) :
    rlWait (minDelayMs rpm) 0 t1 = t1 ∧
    (∀ last now : Nat, last ≤ now →
      last + minDelayMs rpm ≤ rlWait (minDelayMs rpm) last now) ∧
    t1 + gaps.length * minDelayMs rpm ≤ rlNth (minDelayMs rpm) t1 gaps := by
  have hw : rlWait (minDelayMs rpm) 0 t1 = t1 := by
    unfold rlWait
    omega
  refine ⟨hw, fun last now h => (rlWait_spacing _ last now h).1, ?_⟩
  have h := rlFold_spacing (minDelayMs rpm) gaps (rlWait (minDelayMs rpm) 0 t1)
  rw [hw] at h
  rw [rlNth, hw]
  exact h

/-- Witness for C5: sreality budget 30/min (spacing 2000 ms), first
call at epoch 60000 with two further calls arriving immediately: the
first call does not suspend and the third request fires at least
4000 ms after the first. -/
theorem rateLimiter_spec_witness :
    rlWait (minDelayMs 30) 0 60000 = 60000 ∧
    60000 + 2 * minDelayMs 30 ≤ rlNth (minDelayMs 30) 60000 [0, 0] := by
  have h := rateLimiter_spec 30 60000 [0, 0] (by decide)
  exact ⟨h.1, by simpa using h.2.2⟩

/-! ## Claim C1 -/

/-- Step equation of the sreality page loop (definitional). -/
theorem runSrealityUnit_succ (o : Nat → Option SrealityResponseM) (ok : Nat → Bool)
    (M fuel page : Nat) (st : RunCounters) :
    runSrealityUnit o ok M (fuel + 1) page st =
      if M ≤ st.total then st
      else
        match o page with
        | none => { st with pages := st.pages ++ [page] }
        | some resp =>
          let st1 : RunCounters := { st with pages := st.pages ++ [page] }
          if resp.estates.isEmpty then st1
          else
            let ti := processEstates ok M resp.estates st1.total st1.issued
            let st2 : RunCounters := { st1 with total := ti.1, issued := ti.2 }
            if resp.result_size ≤ page * resp.per_page then st2
            else runSrealityUnit o ok M fuel (page + 1) st2 := rfl

/-- With every save/push pair succeeding, the sreality entry loop keeps
the running total within the cutoff and issues exactly one save per
counted entry. -/
theorem processEstates_allok (M : Nat) :
    ∀ (es : List SrealityEstate) (t : Nat), t ≤ M →
      (processEstates (fun _ => true) M es t t).1 ≤ M ∧
      (processEstates (fun _ => true) M es t t).2 =
        (processEstates (fun _ => true) M es t t).1 := by
  intro es
  induction es with
  | nil => intro t ht; exact ⟨ht, rfl⟩
  | cons e rest ih =>
    intro t ht
    by_cases h : M ≤ t
    · simp only [processEstates, if_pos h]
      exact ⟨ht, trivial⟩
    · have hstep : processEstates (fun _ => true) M (e :: rest) t t =
          processEstates (fun _ => true) M rest (t + 1) (t + 1) := by
        simp [processEstates, h]
      rw [hstep]
      exact ih (t + 1) (by omega)

/-- With every save/push pair succeeding, one sreality work unit keeps
the invariant `total ≤ M ∧ issued = total`. -/
theorem runSrealityUnit_allok (o : Nat → Option SrealityResponseM) (M : Nat) :
    ∀ (fuel page : Nat) (st : RunCounters), st.total ≤ M → st.issued = st.total →
      (runSrealityUnit o (fun _ => true) M fuel page st).total ≤ M ∧
      (runSrealityUnit o (fun _ => true) M fuel page st).issued =
        (runSrealityUnit o (fun _ => true) M fuel page st).total := by
  intro fuel
  induction fuel with
  | zero => intro page st h1 h2; exact ⟨h1, h2⟩
  | succ fuel ih =>
    intro page st h1 h2
    rw [runSrealityUnit_succ]
    by_cases hc : M ≤ st.total
    · rw [if_pos hc]; exact ⟨h1, h2⟩
    · rw [if_neg hc]
      cases ho : o page with
      | none => exact ⟨h1, h2⟩
      | some resp =>
        by_cases he : resp.estates.isEmpty
        · simp only [if_pos he]
          exact ⟨h1, h2⟩
        · simp only [if_neg he]
          have hpe := processEstates_allok M resp.estates st.total h1
          by_cases hs : resp.result_size ≤ page * resp.per_page
          · simp only [if_pos hs]
            simp only [show ({ st with pages := st.pages ++ [page] } : RunCounters).total
                = st.total from rfl,
              show ({ st with pages := st.pages ++ [page] } : RunCounters).issued
                = st.issued from rfl, h2]
            exact hpe
          · simp only [if_neg hs]
            simp only [show ({ st with pages := st.pages ++ [page] } : RunCounters).total
                = st.total from rfl,
              show ({ st with pages := st.pages ++ [page] } : RunCounters).issued
                = st.issued from rfl, h2]
            exact ih (page + 1) _ hpe.1 hpe.2

/-- With every save/push pair succeeding, a whole sreality job keeps
the invariant `total ≤ M ∧ issued = total` across its work units. -/
theorem runSrealityJob_allok (M fuel : Nat) :
    ∀ (units : List (Nat → Option SrealityResponseM)) (st : RunCounters),
      st.total ≤ M → st.issued = st.total →
      (runSrealityJob (fun _ => true) M fuel units st).total ≤ M ∧
      (runSrealityJob (fun _ => true) M fuel units st).issued =
        (runSrealityJob (fun _ => true) M fuel units st).total := by
  intro units
  induction units with
  | nil => intro st h1 h2; exact ⟨h1, h2⟩
  | cons o rest ih =>
    intro st h1 h2
    have h := runSrealityUnit_allok o M fuel 1 st h1 h2
    exact ih _ h.1 h.2

/-- Same invariant for the bezrealitky structured-path entry loop. -/
theorem handleListings_allok (M : Nat) :
    ∀ (ls : List BezrealitkyProperty) (t : Nat), t ≤ M →
      (handleListings (fun _ => true) M ls t t).1 ≤ M ∧
      (handleListings (fun _ => true) M ls t t).2 =
        (handleListings (fun _ => true) M ls t t).1 := by
  intro ls
  induction ls with
  | nil => intro t ht; exact ⟨ht, rfl⟩
  | cons l rest ih =>
    intro t ht
    by_cases h : M ≤ t
    · simp only [handleListings, if_pos h]
      exact ⟨ht, trivial⟩
    · have hstep : handleListings (fun _ => true) M (l :: rest) t t =
          handleListings (fun _ => true) M rest (t + 1) (t + 1) := by
        simp [handleListings, h]
      rw [hstep]
      exact ih (t + 1) (by omega)

/-- Same invariant for the bezrealitky DOM-fallback card loop. -/
theorem processCards_allok (nowMs : Nat → Nat) (M : Nat) (url : String) :
    ∀ (cards : List DomCard) (t : Nat) (acc : List PropertyData), t ≤ M →
      (processCards (fun _ => true) nowMs M url cards t t acc).1 ≤ M ∧
      (processCards (fun _ => true) nowMs M url cards t t acc).2.1 =
        (processCards (fun _ => true) nowMs M url cards t t acc).1 := by
  intro cards
  induction cards with
  | nil => intro t acc ht; exact ⟨ht, rfl⟩
  | cons card rest ih =>
    intro t acc ht
    by_cases h : M ≤ t
    · simp only [processCards, if_pos h]
      exact ⟨ht, trivial⟩
    · by_cases hskip : card.title = "" ∨ card.link = ""
      · have hstep : processCards (fun _ => true) nowMs M url (card :: rest) t t acc =
            processCards (fun _ => true) nowMs M url rest t t acc := by
          rcases hskip with hs | hs <;> simp [processCards, h, hs]
        rw [hstep]
        exact ih t acc ht
      · have hstep : processCards (fun _ => true) nowMs M url (card :: rest) t t acc =
            processCards (fun _ => true) nowMs M url rest (t + 1) (t + 1)
              (acc ++ [domCardRecord card url (nowMs t) t]) := by
          rw [not_or] at hskip
          simp [processCards, h, hskip.1, hskip.2]
        rw [hstep]
        exact ih (t + 1) _ (by omega)

/-- Same invariant for the whole bezrealitky crawl queue. -/
theorem runBezQueue_allok (oracle : String → Nat → BezPage) (nowMs : Nat → Nat) (M : Nat) :
    ∀ (fuel : Nat) (queue : List BezRequest) (t : Nat) (acc : List PropertyData), t ≤ M →
      (runBezQueue oracle (fun _ => true) nowMs M fuel queue t t acc).1 ≤ M ∧
      (runBezQueue oracle (fun _ => true) nowMs M fuel queue t t acc).2.1 =
        (runBezQueue oracle (fun _ => true) nowMs M fuel queue t t acc).1 := by
  intro fuel
  induction fuel with
  | zero => intro queue t acc ht; exact ⟨ht, rfl⟩
  | succ fuel ih =>
    intro queue t acc ht
    cases queue with
    | nil => exact ⟨ht, rfl⟩
    | cons req rest =>
      by_cases h : M ≤ t
      · simp only [runBezQueue, if_pos h]
        exact ih rest t acc ht
      · simp only [runBezQueue, if_neg h]
        cases hp : oracle req.url req.page with
        | badJson => exact ih rest t acc ht
        | dom cards =>
          have hc := processCards_allok nowMs M req.url cards t acc ht
          simp only []
          rw [hc.2]
          exact ih rest _ _ hc.1
        | nextData listings =>
          have hl := handleListings_allok M listings t ht
          simp only []
          rw [hl.2]
          exact ih _ _ acc hl.1

/-- Claim C1, amended: when every issued save call and dataset push
succeeds (so that each issued save increments the running total), the
number of save calls issued across all work units and pages is at most
the cutoff `M`, for both adapters.  (The original claim fails when
saves throw: the per-entry `catch` swallows the failure without
incrementing the total, so the loops keep issuing saves — see the
counterexample.) -/
theorem cutoff_bound_all_saves_succeed :
    (∀ (units : List (Nat → Option SrealityResponseM)) (M fuel : Nat),
      (runSrealityJob (fun _ => true) M fuel units ⟨0, 0, []⟩).issued ≤ M) ∧
    (∀ (oracle : String → Nat → BezPage) (nowMs : Nat → Nat) (M fuel : Nat)
        (queue : List BezRequest),
      (runBezQueue oracle (fun _ => true) nowMs M fuel queue 0 0 []).2.1 ≤ M) := by
  constructor
  · intro units M fuel
    have h := runSrealityJob_allok M fuel units ⟨0, 0, []⟩ (Nat.zero_le M) rfl
    omega
  · intro oracle nowMs M fuel queue
    have h := runBezQueue_allok oracle nowMs M fuel queue 0 [] (by omega)
    omega

/-- A minimal estate value (contents never inspected by the loops). -/
def cexEstate : SrealityEstate :=
  { hash_id := 1, name := "Prodej bytu 1+kk 20 m²", locality := "Praha",
    price := 0, price_czk := none, gps := none, labelsAll := none,
    seo := none, embedded := none }

/-- A source whose every page carries two estates, with pagination
counters ending the unit after page 2 (`result_size = 4`,
`per_page = 2`). -/
def cexPageOracle : Nat → Option SrealityResponseM :=
  fun _ => some { estates := [cexEstate, cexEstate], per_page := 2, result_size := 4 }

/-- Claim C1 counterexample: with `maxProperties = 1` and every save
call failing (network error thrown inside `saveProperty`, swallowed by
the per-entry `catch`), the run issues 4 save calls — more than `M = 1`
and more than `M + (page size − 1) = 2`: the re-checks bound the
*counted* total, not the number of save calls issued. -/
theorem cutoff_bound_cex :
    (runSrealityJob (fun _ => false) 1 9 [cexPageOracle] ⟨0, 0, []⟩).issued = 4 ∧
      ¬((runSrealityJob (fun _ => false) 1 9 [cexPageOracle] ⟨0, 0, []⟩).issued ≤ 1) ∧
      ¬((runSrealityJob (fun _ => false) 1 9 [cexPageOracle] ⟨0, 0, []⟩).issued ≤ 1 + (2 - 1)) := by
  decide

/-! ## Claim C2 -/

/-- The page loop only ever appends to the list of fetched pages. -/
theorem runSrealityUnit_pages_mono (o : Nat → Option SrealityResponseM)
    (ok : Nat → Bool) (M : Nat) :
    ∀ (fuel page : Nat) (st : RunCounters),
      ∃ l, (runSrealityUnit o ok M fuel page st).pages = st.pages ++ l := by
  intro fuel
  induction fuel with
  | zero => intro page st; exact ⟨[], by simp [runSrealityUnit]⟩
  | succ fuel ih =>
    intro page st
    rw [runSrealityUnit_succ]
    by_cases hc : M ≤ st.total
    · rw [if_pos hc]; exact ⟨[], by simp⟩
    · rw [if_neg hc]
      cases ho : o page with
      | none => exact ⟨[page], rfl⟩
      | some resp =>
        by_cases he : resp.estates.isEmpty
        · simp only [if_pos he]
          exact ⟨[page], rfl⟩
        · simp only [if_neg he]
          by_cases hs : resp.result_size ≤ page * resp.per_page
          · simp only [if_pos hs]
            exact ⟨[page], rfl⟩
          · simp only [if_neg hs]
            obtain ⟨l, hl⟩ := ih (page + 1)
              { st with
                pages := st.pages ++ [page]
                total := (processEstates ok M resp.estates st.total st.issued).1
                issued := (processEstates ok M resp.estates st.total st.issued).2 }
            refine ⟨[page] ++ l, ?_⟩
            rw [hl]
            simp

/-- A step of the page loop below the cutoff fetches its page, and
anything it does afterwards only appends more pages. -/
theorem runSrealityUnit_step_pages (o : Nat → Option SrealityResponseM)
    (ok : Nat → Bool) (M fuel page : Nat) (st : RunCounters) (h : st.total < M) :
    ∃ l, (runSrealityUnit o ok M (fuel + 1) page st).pages = st.pages ++ page :: l := by
  rw [runSrealityUnit_succ, if_neg (by omega)]
  cases ho : o page with
  | none => exact ⟨[], rfl⟩
  | some resp =>
    by_cases he : resp.estates.isEmpty
    · simp only [if_pos he]
      exact ⟨[], rfl⟩
    · simp only [if_neg he]
      by_cases hs : resp.result_size ≤ page * resp.per_page
      · simp only [if_pos hs]
        exact ⟨[], rfl⟩
      · simp only [if_neg hs]
        obtain ⟨l, hl⟩ := runSrealityUnit_pages_mono o ok M fuel (page + 1)
          { st with
            pages := st.pages ++ [page]
            total := (processEstates ok M resp.estates st.total st.issued).1
            issued := (processEstates ok M resp.estates st.total st.issued).2 }
        refine ⟨l, ?_⟩
        rw [hl]
        simp

/-- The two-page scenario source: page 1 yields 60 estates with
`per_page = 60`, `result_size = 90`; page 2 yields the remaining 30;
further pages would yield 60 more (so stopping is observable). -/
def scenarioOracle : Nat → Option SrealityResponseM :=
  fun p =>
    if p = 1 then some { estates := List.replicate 60 cexEstate, per_page := 60, result_size := 90 }
    else if p = 2 then some { estates := List.replicate 30 cexEstate, per_page := 60, result_size := 90 }
    else some { estates := List.replicate 60 cexEstate, per_page := 60, result_size := 100000 }

/-- Claim C2: below the cutoff, a work unit stops after fetching a page
exactly when that page is empty or `page × per_page ≥ result_size`; and
on the two-page 60/30 scenario with `result_size = 90` a run with a
large cutoff processes exactly 90 records over exactly the two pages. -/
theorem sreality_exhaustion_spec :
    (∀ (oracle : Nat → Option SrealityResponseM) (ok : Nat → Bool)
        (M fuel page : Nat) (st : RunCounters) (resp : SrealityResponseM),
      oracle page = some resp →
      st.total < M →
      (processEstates ok M resp.estates st.total st.issued).1 < M →
      ((runSrealityUnit oracle ok M (fuel + 2) page st).pages = st.pages ++ [page] ↔
        (resp.estates = [] ∨ resp.result_size ≤ page * resp.per_page))) ∧
    runSrealityUnit scenarioOracle (fun _ => true) 1000 9 1 ⟨0, 0, []⟩ =
      ⟨90, 90, [1, 2]⟩ := by
  constructor
  · intro oracle ok M fuel page st resp ho hlt hpe
    constructor
    · intro hpages
      by_contra hcon
      rw [not_or] at hcon
      have hne : ¬resp.estates.isEmpty := by
        simp [List.isEmpty_iff, hcon.1]
      rw [runSrealityUnit_succ, if_neg (by omega), ho] at hpages
      simp only [if_neg hne, if_neg hcon.2] at hpages
      obtain ⟨l, hl⟩ := runSrealityUnit_step_pages oracle ok M fuel (page + 1)
        { st with
          pages := st.pages ++ [page]
          total := (processEstates ok M resp.estates st.total st.issued).1
          issued := (processEstates ok M resp.estates st.total st.issued).2 }
        hpe
      rw [hl] at hpages
      have := congrArg List.length hpages
      simp at this
    · intro hstop
      rw [runSrealityUnit_succ, if_neg (by omega), ho]
      rcases hstop with hemp | hstop
      · simp [List.isEmpty_iff, hemp]
      · by_cases he : resp.estates.isEmpty
        · simp only [if_pos he]
        · simp only [if_neg he, if_pos hstop]
  · decide

/-- Witness for C2: the exhaustion characterization applied at page 2
of the scenario source (stop because `2 × 60 ≥ 90`), from the state
reached after page 1. -/
theorem sreality_exhaustion_spec_witness :
    (runSrealityUnit scenarioOracle (fun _ => true) 1000 7 2 ⟨60, 60, [1]⟩).pages =
      [1] ++ [2] := by
  have h := sreality_exhaustion_spec.1 scenarioOracle (fun _ => true) 1000 5 2
    ⟨60, 60, [1]⟩
    { estates := List.replicate 30 cexEstate, per_page := 60, result_size := 90 }
    rfl (by decide) (by decide)
  exact h.mpr (Or.inr (by decide))

/-! ## Claim C6 -/

/-- The DOM fallback keeps a card iff its skip test
`!title || !link` fails. -/
def domCardKept (c : DomCard) : Bool :=
  !(decide (c.title = "") || decide (c.link = ""))

/-- Below the cutoff and with all saves succeeding, the DOM card loop
delivers exactly the kept cards, in order, each normalized with the
wall clock and running total current at its save. -/
theorem processCards_saved_eq (nowMs : Nat → Nat) (M : Nat) (url : String) :
    ∀ (cards : List DomCard) (k : Nat) (acc : List PropertyData),
      k + cards.length ≤ M →
      processCards (fun _ => true) nowMs M url cards k k acc =
        (k + (cards.filter domCardKept).length,
         k + (cards.filter domCardKept).length,
         acc ++ ((cards.filter domCardKept).enumFrom k).map
           (fun p => domCardRecord p.2 url (nowMs p.1) p.1)) := by
  intro cards
  induction cards with
  | nil => intro k acc h; simp [processCards]
  | cons card rest ih =>
    intro k acc h
    have hk : ¬ M ≤ k := by
      simp only [List.length_cons] at h
      omega
    by_cases hskip : card.title = "" ∨ card.link = ""
    · have hkept : domCardKept card = false := by
        rcases hskip with hs | hs <;> simp [domCardKept, hs]
      have hstep : processCards (fun _ => true) nowMs M url (card :: rest) k k acc =
          processCards (fun _ => true) nowMs M url rest k k acc := by
        rcases hskip with hs | hs <;> simp [processCards, hk, hs]
      rw [hstep, ih k acc (by simp only [List.length_cons] at h; omega)]
      simp [List.filter_cons, hkept]
    · rw [not_or] at hskip
      have hkept : domCardKept card = true := by
        simp [domCardKept, hskip.1, hskip.2]
      have hstep : processCards (fun _ => true) nowMs M url (card :: rest) k k acc =
          processCards (fun _ => true) nowMs M url rest (k + 1) (k + 1)
            (acc ++ [domCardRecord card url (nowMs k) k]) := by
        simp [processCards, hk, hskip.1, hskip.2]
      rw [hstep, ih (k + 1) _ (by simp only [List.length_cons] at h; omega)]
      simp only [List.filter_cons, hkept, if_pos, List.length_cons, List.enumFrom_cons,
        List.map_cons, List.append_assoc, List.singleton_append, Prod.mk.injEq]
      refine ⟨by omega, by omega, trivial⟩

/-- Claim C6, amended: the DOM fallback discards exactly the extracted
entries missing the title **or** missing the link (`!title || !link`):
an entry is normalized and delivered iff both its title and its link
are non-empty.  (The original claim — that an entry with at least one
of the two present is delivered — fails; see the counterexample.) -/
theorem dom_filter_spec (cards : List DomCard) (url : String) (nowMs : Nat → Nat)
    (M : Nat) (h : cards.length ≤ M) :
    processCards (fun _ => true) nowMs M url cards 0 0 [] =
      ((cards.filter domCardKept).length,
       (cards.filter domCardKept).length,
       ((cards.filter domCardKept).enumFrom 0).map
         (fun p => domCardRecord p.2 url (nowMs p.1) p.1)) ∧
    (∀ c : DomCard, domCardKept c = true ↔ (c.title ≠ "" ∧ c.link ≠ "")) := by
  constructor
  · have hh := processCards_saved_eq nowMs M url cards 0 [] (by omega)
    simpa using hh
  · intro c
    simp [domCardKept]

/-- A card with a title but no link. -/
def titleOnlyCard : DomCard :=
  { title := "Rodinný dům Praha-západ", priceText := "15 900 000 Kč",
    areaText := "180 m²", link := "", imageUrl := "" }

/-- Claim C6 counterexample: a card with a non-empty title but an empty
link is skipped without a save — the claim says an entry with at least
one of title or link present must be delivered. -/
theorem dom_filter_cex :
    processCards (fun _ => true) (fun _ => 0) 100 "u" [titleOnlyCard] 0 0 [] =
      (0, 0, []) ∧ titleOnlyCard.title ≠ "" := by decide

/-- A card with both title and link. -/
def fullCard : DomCard :=
  { title := "Byt 3+kk Brno", priceText := "8 000 000 Kč",
    areaText := "82 m²", link := "/nemovitost/byt-brno-77", imageUrl := "img.jpg" }

/-- Witness for C6 (amended) at a concrete two-card page: the full card
is delivered, the link-less one is skipped. -/
theorem dom_filter_spec_witness :
    processCards (fun _ => true) (fun _ => 1234)  10
        "https://www.bezrealitky.cz/prodej/byt/brno?page=1" [fullCard, titleOnlyCard]
        0 0 [] =
      (1, 1, [domCardRecord fullCard "https://www.bezrealitky.cz/prodej/byt/brno?page=1"
        1234 0]) := by
  have hh := (dom_filter_spec [fullCard, titleOnlyCard]
    "https://www.bezrealitky.cz/prodej/byt/brno?page=1" (fun _ => 1234) 10 (by decide)).1
  rw [hh]
  decide
